import Mathlib

/-!
Verification of the wedding-guestbook service and its archival exporter.

The development shallowly embeds the JavaScript source:

* server/index.js — the submit endpoint (POST /api/entries), the public feed
  (GET /api/entries) and the admin-password middleware;
* scripts/generate-html.js — the offline regeneration script that re-renders
  the archive from the JSON backup and locally cached photo files;
* the backup/export script shown in README.md — network fetch of every entry,
  photo download with deterministic filenames, raw JSON export and the four
  snapshot variants.

External collaborators (the SQL store, Cloudinary, the network, the local
filesystem) are modelled as explicit inputs: per-file ingest outcomes, a
fetch function returning an optional response, and a path-to-bytes map.
-/

namespace Guestbook

/-- A JavaScript value as it may arrive in a request-body field.  Form fields
parsed by multer are strings and absent fields are undefined; a JSON body may
also carry booleans or numbers. -/
inductive FormValue where
  | undef
  | str (s : String)
  | boolean (b : Bool)
  | num (n : Int)
deriving DecidableEq

/-- JavaScript strict equality of a form value against a string literal:
true only when the value is a string with identical contents (strict equality
across types is always false). -/
def FormValue.strictEqStr : FormValue → String → Bool
  | .str s, t => s == t
  | _, _ => false

/-- A persisted guestbook entry: one row of the guestbook_entries table
(id SERIAL, name, note, photos TEXT[], approved BOOLEAN, created_at). -/
structure Entry where
  id : Nat
  name : String
  note : String
  photos : List String
  approved : Bool
  created_at : Nat
deriving DecidableEq

/-- The entry store.  nextId models the SERIAL id sequence and now the
timestamp NOW() assigns to the next insertion. -/
structure Store where
  entries : List Entry
  nextId : Nat
  now : Nat
deriving DecidableEq

/-- JavaScript truthiness test used by the submit handler on the optional
name and note fields: an absent field (undefined) and the empty string are
the falsy cases. -/
def jsFalsy : Option String → Bool
  | none => true
  | some s => s == ""

/-- Length of an optional string field; the handler only reads it after the
truthiness check, so the default for an absent field is irrelevant. -/
def jsLen : Option String → Nat
  | none => 0
  | some s => s.length

/-- A submit request: the two text fields, the private flag, and the uploaded
files.  Each file is represented by the outcome of its Cloudinary ingest
(some url when uploadToCloudinary resolves, none when it rejects), in
submission order; multer bounds the list to 5 files. -/
structure SubmitRequest where
  name : Option String
  note : Option String
  files : List (Option String)
  priv : FormValue
deriving DecidableEq

/-- Response sent by the submit endpoint. -/
inductive SubmitResponse where
  | error (status : Nat) (msg : String)
  | success (entry : Entry) (message : String)
deriving DecidableEq

/-- Result of one submit-handler run: the HTTP response, the store after the
run, and how many Cloudinary uploads were attempted. -/
structure SubmitOutcome where
  response : SubmitResponse
  store : Store
  uploadsAttempted : Nat
deriving DecidableEq

/-- The private-flag test of the submit handler:
req.body.private === 'true'. -/
def isPrivateOf (v : FormValue) : Bool := v.strictEqStr "true"

/-- The POST /api/entries handler.  Validation first (absent/empty name or
note, then name longer than 120); then the per-file upload loop, which runs
only when files were sent and Cloudinary is configured and keeps the urls of
the successful uploads in submission order; then approved is computed as the
negation of the private flag and the row is inserted. -/
def submit (cloudinaryConfigured : Bool) (req : SubmitRequest) (s : Store) :
    SubmitOutcome :=
  if jsFalsy req.name || jsFalsy req.note then
    ⟨.error 400 "Name and note are required", s, 0⟩
  else if jsLen req.name > 120 then
    ⟨.error 400 "Name must be 120 characters or less", s, 0⟩
  else
    let uploadsAttempted :=
      if !req.files.isEmpty && cloudinaryConfigured then req.files.length else 0
    let photos :=
      if !req.files.isEmpty then
        if cloudinaryConfigured then req.files.filterMap id else []
      else []
    let isPrivate := isPrivateOf req.priv
    let approved := !isPrivate
    let entry : Entry :=
      ⟨s.nextId, req.name.getD "", req.note.getD "", photos, approved, s.now⟩
    let message :=
      if isPrivate then
        "Thank you! Your private message has been sent to the couple."
      else "Thank you for signing the guestbook!"
    ⟨.success entry message, ⟨s.entries ++ [entry], s.nextId + 1, s.now⟩,
      uploadsAttempted⟩

/-- The row shape of the public feed: SELECT id, name, note, photos,
created_at — the approved column is omitted from the projection. -/
structure PublicEntry where
  id : Nat
  name : String
  note : String
  photos : List String
  created_at : Nat
deriving DecidableEq

/-- Projection of a stored entry to the public row shape. -/
def publicProjection (e : Entry) : PublicEntry :=
  ⟨e.id, e.name, e.note, e.photos, e.created_at⟩

/-- The comparator realising ORDER BY created_at DESC. -/
def createdDesc (a b : Entry) : Bool := decide (b.created_at ≤ a.created_at)

/-- The rows selected by the public feed query: WHERE approved = true
ORDER BY created_at DESC. -/
def listApproved (s : Store) : List Entry :=
  (s.entries.filter (fun e => e.approved)).mergeSort createdDesc

/-- The GET /api/entries response body: the approved rows, newest first,
projected to the public row shape. -/
def publicFeed (s : Store) : List PublicEntry :=
  (listApproved s).map publicProjection

/-- Outcome of the admin-password middleware. -/
inductive AuthResult where
  | denied (status : Nat) (msg : String)
  | granted
deriving DecidableEq

/-- The adminAuth middleware: the x-admin-password header (undefined when
absent) is compared with strict inequality against the configured
ADMIN_PASSWORD (undefined when the variable is not set); any mismatch is a
401 and a match falls through to the handler. -/
def adminAuth (header configPassword : Option String) : AuthResult :=
  if header ≠ configPassword then .denied 401 "Unauthorized" else .granted

/-! ### Archival exporter (backup script in README.md and scripts/generate-html.js) -/

/-- An entry as handled by the archival exporter: the row fetched from the
store (or the JSON-backup row, whose url list is called photo_urls) together
with the embedded-photo list the export loop attaches to it. -/
structure ArchEntry where
  id : Nat
  name : String
  note : String
  approved : Bool
  created_at : Nat
  photo_urls : List String
  embeddedPhotos : List String
deriving DecidableEq

/-- Replace every occurrence of the character c by the string r: the JS
global-regex replace s.replace(solidus c solidus g, r) for a one-character
pattern. -/
def replaceAllChar (c : Char) (r : List Char) : List Char → List Char
  | [] => []
  | x :: xs => (if x = c then r else [x]) ++ replaceAllChar c r xs

/-- escapeHtml from the exporter scripts: the chained global replaces of the
ampersand (first), then the angle brackets, then the double quote. -/
def escapeHtml (s : String) : String :=
  ⟨replaceAllChar '"' "&quot;".data
    (replaceAllChar '>' "&gt;".data
      (replaceAllChar '<' "&lt;".data
        (replaceAllChar '&' "&amp;".data s.data)))⟩

/-- One inline img tag of the photo strip; src is an embedded data URI. -/
def renderPhotoImg (src : String) : String :=
  "<img src=\"" ++ src ++ "\" class=\"entry-photo\" onclick=\"openLightbox(this.src)\" />"

/-- The photo strip of one entry block: the joined img tags, wrapped in the
entry-photos div when non-empty (the JS conditional on the truthiness of the
joined string). -/
def renderEntryPhotos (e : ArchEntry) : String :=
  let photos := String.join (e.embeddedPhotos.map renderPhotoImg)
  if photos == "" then "" else
    "<div class=\"entry-photos\">" ++ photos ++ "</div>"

/-- The literal template pieces of renderEntry, in order of appearance. -/
def entryOpen : String :=
  "\n    <div class=\"entry\">\n      <div class=\"entry-header\">\n        <h3 class=\"entry-name\">"

def entryAfterName : String := "</h3>\n        <time class=\"entry-date\">"

def entryAfterDate : String := "</time>\n      </div>\n      <p class=\"entry-note\">"

def entryAfterNote : String := "</p>\n      "

def entryClose : String := "\n    </div>"

/-- renderEntry from the exporter scripts: the entry block with the escaped
name, the formatted date, the escaped note and the photo strip interpolated
into the template.  The locale date formatting (formatDate over the stored
timestamp) is environment supplied and passed in as a function. -/
def renderEntry (formatDate : Nat → String) (e : ArchEntry) : String :=
  entryOpen ++ escapeHtml e.name ++ entryAfterName ++ formatDate e.created_at ++
    entryAfterDate ++ escapeHtml e.note ++ entryAfterNote ++
    renderEntryPhotos e ++ entryClose

/-- One snapshot variant: output file name, the entry subset it renders, and
its document title. -/
structure Variant where
  file : String
  data : List ArchEntry
  title : String
deriving DecidableEq

/-- The four variants built by the backup export script (main in README.md):
all entries, the approved subset, the clean subset (entries.slice(3), the
first three rows being test posts), and the approved clean subset. -/
def backupVariants (entries : List ArchEntry) : List Variant :=
  let cleanEntries := entries.drop 3
  let publicEntries := entries.filter (fun e => e.approved)
  let cleanPublicEntries := cleanEntries.filter (fun e => e.approved)
  [⟨"time-capsule-full-with-tests.html", entries,
      "Wedding Guestbook — Complete Archive (incl. test posts)"⟩,
   ⟨"time-capsule-public-with-tests.html", publicEntries,
      "Wedding Guestbook — Public (incl. test posts)"⟩,
   ⟨"time-capsule-full.html", cleanEntries,
      "Wedding Guestbook — Complete Archive"⟩,
   ⟨"time-capsule-public.html", cleanPublicEntries, "Wedding Guestbook"⟩]

/-- TEST_IDS in generate-html.js: the ids of the first three loaded entries
(the script indexes entries 0, 1 and 2 directly). -/
def testIds (entries : List ArchEntry) : List Nat :=
  (entries.take 3).map (fun e => e.id)

/-- cleanEntries in generate-html.js: every entry whose id is not one of the
TEST_IDS. -/
def regenCleanEntries (entries : List ArchEntry) : List ArchEntry :=
  entries.filter (fun e => decide (e.id ∉ testIds entries))

/-- The three variants built by the offline regeneration script
generate-html.js: all entries, the clean subset, and the approved clean
subset. -/
def regenVariants (entries : List ArchEntry) : List Variant :=
  let cleanEntries := regenCleanEntries entries
  [⟨"time-capsule-all-with-tests.html", entries,
      "Wedding Guestbook — Complete Archive (incl. test posts)"⟩,
   ⟨"time-capsule-full.html", cleanEntries,
      "Wedding Guestbook — Complete Archive"⟩,
   ⟨"time-capsule-public.html", cleanEntries.filter (fun e => e.approved),
      "Wedding Guestbook"⟩]

/-- The entry subset selected by choosing a point on each of the two
presentation axes: with or without the three-entry test prefix, and all or
approved-only. -/
def variantAxisData (entries : List ArchEntry) (withTests publicOnly : Bool) :
    List ArchEntry :=
  let base := if withTests then entries else entries.drop 3
  if publicOnly then base.filter (fun e => e.approved) else base

/-- An HTTP response to a successful image fetch (res.ok): the declared
content-type header when present, and the body bytes. -/
structure FetchResp where
  contentType : Option String
  body : List Nat
deriving DecidableEq

/-- The extension table of downloadImage: known image media types map to
their extension, anything else falls back to .jpg. -/
def extForContentType (ct : String) : String :=
  if ct == "image/jpeg" then ".jpg"
  else if ct == "image/png" then ".png"
  else if ct == "image/gif" then ".gif"
  else if ct == "image/webp" then ".webp"
  else ".jpg"

/-- The standard base64 alphabet used by buffer.toString with base64. -/
def base64Alphabet : List Char :=
  "ABCDEFGHIJKLMNOPQRSTUVWXYZabcdefghijklmnopqrstuvwxyz0123456789+/".data

/-- The base64 digit of a 6-bit group. -/
def base64Char (i : Nat) : Char := base64Alphabet.getD i 'A'

/-- Base64 encoding of a byte list (bytes as naturals below 256), with the
standard padding. -/
def base64Encode : List Nat → String
  | [] => ""
  | [a] =>
      ⟨[base64Char (a / 4), base64Char (a % 4 * 16)]⟩ ++ "=="
  | [a, b] =>
      ⟨[base64Char (a / 4), base64Char (a % 4 * 16 + b / 16),
        base64Char (b % 16 * 4)]⟩ ++ "="
  | a :: b :: c :: rest =>
      ⟨[base64Char (a / 4), base64Char (a % 4 * 16 + b / 16),
        base64Char (b % 16 * 4 + c / 64), base64Char (c % 64)]⟩ ++
        base64Encode rest

/-- The deterministic base name downloadImage and the regeneration script
agree on: entry-(id)-photo-(n) with n the 1-based photo index. -/
def photoBaseName (entryId photoIndex : Nat) : String :=
  "entry-" ++ toString entryId ++ "-photo-" ++ toString photoIndex

/-- What a successful downloadImage call produces: the data URI pushed into
the embedded list, the deterministic filename of the persisted copy, and the
bytes written to that file. -/
structure DownloadResult where
  dataUri : String
  filename : String
  bytes : List Nat
deriving DecidableEq

/-- downloadImage from the backup script: fetch the url (none models res.ok
false or a thrown error, caught and turned into null); on success take the
declared content type (defaulting to image/jpeg), derive the extension,
persist the bytes under the deterministic name, and return the base64 data
URI together with that filename. -/
def downloadImage (netFetch : String → Option FetchResp) (url : String)
    (entryId photoIndex : Nat) : Option DownloadResult :=
  match netFetch url with
  | none => none
  | some res =>
      let contentType := res.contentType.getD "image/jpeg"
      let ext := extForContentType contentType
      let filename := photoBaseName entryId photoIndex ++ ext
      some ⟨"data:" ++ contentType ++ ";base64," ++ base64Encode res.body,
        filename, res.body⟩

/-- The per-entry download loop of the backup script: photos are attempted
in order with 1-based indices; the data URIs of the successes are kept and a
failed download is skipped. -/
def embedPhotosAux (netFetch : String → Option FetchResp) (entryId : Nat) :
    Nat → List String → List String
  | _, [] => []
  | i, url :: rest =>
      match downloadImage netFetch url entryId (i + 1) with
      | some r => r.dataUri :: embedPhotosAux netFetch entryId (i + 1) rest
      | none => embedPhotosAux netFetch entryId (i + 1) rest

/-- The embeddedPhotos list the backup script attaches to one entry. -/
def embedEntryPhotos (netFetch : String → Option FetchResp) (e : ArchEntry) :
    List String :=
  embedPhotosAux netFetch e.id 0 e.photo_urls

/-- One row of the raw JSON export (guestbook-data.json): the entry fields
plus the original reference urls under the photo_urls key, independent of
any download outcome. -/
structure JsonRow where
  id : Nat
  name : String
  note : String
  approved : Bool
  created_at : Nat
  photo_urls : List String
deriving DecidableEq

/-- The raw-export projection of one entry. -/
def jsonExportRow (e : ArchEntry) : JsonRow :=
  ⟨e.id, e.name, e.note, e.approved, e.created_at, e.photo_urls⟩

/-- The candidate extensions the regeneration script probes, in its fixed
order. -/
def candidateExts : List String := [".jpg", ".png", ".gif", ".webp"]

/-- The probing step of generate-html.js: map the candidate extensions onto
full paths for the base name and take the first path that exists in the
photos directory (modelled as a path-to-bytes map). -/
def findPhotoFile (fsys : String → Option (List Nat)) (baseName : String) :
    Option String :=
  (candidateExts.map (fun ext => baseName ++ ext)).find?
    (fun p => (fsys p).isSome)

/-- Reading the probed file: the bytes the regeneration script embeds (as a
base64 data URI) for this base name, when some candidate file exists. -/
def readPhotoFile (fsys : String → Option (List Nat)) (baseName : String) :
    Option (List Nat) :=
  (findPhotoFile fsys baseName).bind fsys

/-! ### Helper lemmas -/

/-- The entry inserted by a submit run that passed validation. -/
def validEntry (cloudinaryConfigured : Bool) (req : SubmitRequest) (s : Store) :
    Entry :=
  ⟨s.nextId, req.name.getD "", req.note.getD "",
    if !req.files.isEmpty then
      (if cloudinaryConfigured then req.files.filterMap id else [])
    else [],
    !(isPrivateOf req.priv), s.now⟩

/-- The confirmation message of a successful submit run. -/
def submitMessage (req : SubmitRequest) : String :=
  if isPrivateOf req.priv then
    "Thank you! Your private message has been sent to the couple."
  else "Thank you for signing the guestbook!"

theorem submit_valid_eq (cloudinaryConfigured : Bool) (req : SubmitRequest)
    (s : Store) (h1 : jsFalsy req.name = false) (h2 : jsFalsy req.note = false)
    (h3 : jsLen req.name ≤ 120) :
    submit cloudinaryConfigured req s =
      ⟨.success (validEntry cloudinaryConfigured req s) (submitMessage req),
        ⟨s.entries ++ [validEntry cloudinaryConfigured req s], s.nextId + 1,
          s.now⟩,
        if !req.files.isEmpty && cloudinaryConfigured then req.files.length
        else 0⟩ := by
  unfold submit
  rw [if_neg (by simp [h1, h2]), if_neg (by omega)]
  rfl

theorem jsFalsy_some_ne {nm : String} (h : nm ≠ "") :
    jsFalsy (some nm) = false := by
  simpa [jsFalsy] using h

theorem mem_replaceAllChar {x c : Char} {r l : List Char}
    (hx : x ∈ replaceAllChar c r l) : x ∈ r ∨ (x ∈ l ∧ x ≠ c) := by
  induction l with
  | nil => simp [replaceAllChar] at hx
  | cons y ys ih =>
    simp only [replaceAllChar] at hx
    rcases List.mem_append.mp hx with h | h
    · by_cases hyc : y = c
      · left
        simpa [hyc] using h
      · right
        simp only [if_neg hyc, List.mem_singleton] at h
        subst h
        exact ⟨List.mem_cons_self _ _, hyc⟩
    · rcases ih h with h | ⟨hmem, hne⟩
      · left; exact h
      · right; exact ⟨List.mem_cons_of_mem _ hmem, hne⟩

theorem escapeHtml_no_lt (s : String) : '<' ∉ (escapeHtml s).data := by
  intro hmem
  have h1 : '<' ∈ replaceAllChar '"' "&quot;".data
      (replaceAllChar '>' "&gt;".data
        (replaceAllChar '<' "&lt;".data
          (replaceAllChar '&' "&amp;".data s.data))) := hmem
  rcases mem_replaceAllChar h1 with h | ⟨h2, _⟩
  · exact absurd h (by decide)
  rcases mem_replaceAllChar h2 with h | ⟨h3, _⟩
  · exact absurd h (by decide)
  rcases mem_replaceAllChar h3 with h | ⟨_, hne⟩
  · exact absurd h (by decide)
  · exact hne rfl

theorem data_chunk_of_split (w pre mid post : String)
    (h : w = pre ++ mid ++ post) : mid.data <:+: w.data := by
  subst h
  exact ⟨pre.data, post.data, by simp [String.data_append]⟩

theorem str_append_left_cancel {s a b : String} (h : s ++ a = s ++ b) :
    a = b := by
  have h2 := congrArg String.data h
  simp at h2
  exact String.ext h2

theorem extForContentType_mem (ct : String) :
    extForContentType ct ∈ candidateExts := by
  unfold extForContentType candidateExts
  split_ifs <;> simp

theorem readPhotoFile_of_persisted (fsys : String → Option (List Nat))
    (b ext : String) (bytes : List Nat) (hmem : ext ∈ candidateExts)
    (hone : fsys (b ++ ext) = some bytes)
    (hothers : ∀ e ∈ candidateExts, b ++ e ≠ b ++ ext → fsys (b ++ e) = none) :
    readPhotoFile fsys b = some bytes := by
  have hne : ∀ e : String, e ∈ candidateExts → e ≠ ext → fsys (b ++ e) = none :=
    fun e hmem hne =>
      hothers e hmem (fun heq => hne (str_append_left_cancel heq))
  have hexts : ext = ".jpg" ∨ ext = ".png" ∨ ext = ".gif" ∨ ext = ".webp" := by
    simpa [candidateExts] using hmem
  rcases hexts with rfl | rfl | rfl | rfl
  · simp [readPhotoFile, findPhotoFile, candidateExts, List.find?, hone]
  · have hj : fsys (b ++ ".jpg") = none :=
      hne ".jpg" (by simp [candidateExts]) (by decide)
    simp [readPhotoFile, findPhotoFile, candidateExts, List.find?, hj, hone]
  · have hj : fsys (b ++ ".jpg") = none :=
      hne ".jpg" (by simp [candidateExts]) (by decide)
    have hp : fsys (b ++ ".png") = none :=
      hne ".png" (by simp [candidateExts]) (by decide)
    simp [readPhotoFile, findPhotoFile, candidateExts, List.find?, hj, hp, hone]
  · have hj : fsys (b ++ ".jpg") = none :=
      hne ".jpg" (by simp [candidateExts]) (by decide)
    have hp : fsys (b ++ ".png") = none :=
      hne ".png" (by simp [candidateExts]) (by decide)
    have hg : fsys (b ++ ".gif") = none :=
      hne ".gif" (by simp [candidateExts]) (by decide)
    simp [readPhotoFile, findPhotoFile, candidateExts, List.find?, hj, hp, hg,
      hone]

/-! ### Claim theorems -/

/-- Claim C1: for every store state, the public feed returns exactly the
entries with approved = true (as a permutation of the approved filter),
ordered by created_at descending, and each returned row is the projection of
an approved stored entry onto PublicEntry, a row shape from which the
approved field is omitted; in particular no entry with approved = false is
ever returned. -/
theorem publicFeed_spec (s : Store) :
    List.Perm (listApproved s) (s.entries.filter (fun e => e.approved))
    ∧ (∀ p ∈ publicFeed s, ∃ e ∈ s.entries, e.approved = true ∧
        publicProjection e = p)
    ∧ List.Pairwise (fun a b : PublicEntry => b.created_at ≤ a.created_at)
        (publicFeed s) := by
  refine ⟨List.mergeSort_perm _ _, ?_, ?_⟩
  · intro p hp
    rcases List.mem_map.mp hp with ⟨e, he, rfl⟩
    have he2 : e ∈ s.entries.filter (fun e => e.approved) :=
      (List.mergeSort_perm _ createdDesc).mem_iff.mp he
    rcases List.mem_filter.mp he2 with ⟨hmem, happ⟩
    exact ⟨e, hmem, happ, rfl⟩
  · have hs := @List.sorted_mergeSort Entry createdDesc
      (fun a b c hab hbc => by
        simp only [createdDesc, decide_eq_true_eq] at *
        omega)
      (fun a b => by
        simp only [createdDesc, Bool.or_eq_true, decide_eq_true_eq]
        omega)
      (s.entries.filter (fun e => e.approved))
    refine List.pairwise_map.mpr (hs.imp ?_)
    intro a b h
    simpa [createdDesc, publicProjection] using h

/-- Claim C2: a valid submission (a present non-empty name of at most 120
characters and a present non-empty note) succeeds, appends exactly one entry
to the store, and that entry's approved field is the negation of the
submission's private flag. -/
theorem submit_valid_creates (cloudinaryConfigured : Bool)
    (req : SubmitRequest) (s : Store) (nm nt : String)
    (hn : req.name = some nm) (hne : nm ≠ "") (hlen : nm.length ≤ 120)
    (ht : req.note = some nt) (hte : nt ≠ "") :
    ∃ e msg, (submit cloudinaryConfigured req s).response = .success e msg
      ∧ e.approved = !(isPrivateOf req.priv)
      ∧ (submit cloudinaryConfigured req s).store.entries = s.entries ++ [e]
      ∧ (submit cloudinaryConfigured req s).store.nextId = s.nextId + 1 := by
  have h1 : jsFalsy req.name = false := by rw [hn]; exact jsFalsy_some_ne hne
  have h2 : jsFalsy req.note = false := by rw [ht]; exact jsFalsy_some_ne hte
  have h3 : jsLen req.name ≤ 120 := by rw [hn]; simpa [jsLen] using hlen
  rw [submit_valid_eq cloudinaryConfigured req s h1 h2 h3]
  exact ⟨_, _, rfl, rfl, rfl, rfl⟩

/-- Witness for C2: a concrete private submission is created unapproved. -/
theorem submit_valid_creates_witness :
    ∃ e msg,
      (submit true ⟨some "Alex", some "Congrats", [], .str "true"⟩
          ⟨[], 1, 5⟩).response = .success e msg
      ∧ e.approved = !(isPrivateOf (.str "true"))
      ∧ (submit true ⟨some "Alex", some "Congrats", [], .str "true"⟩
          ⟨[], 1, 5⟩).store.entries = ([] : List Entry) ++ [e]
      ∧ (submit true ⟨some "Alex", some "Congrats", [], .str "true"⟩
          ⟨[], 1, 5⟩).store.nextId = 1 + 1 :=
  submit_valid_creates true ⟨some "Alex", some "Congrats", [], .str "true"⟩
    ⟨[], 1, 5⟩ "Alex" "Congrats" rfl (by decide) (by decide) rfl (by decide)

/-- Claim C3: a submission with an absent or empty name, an absent or empty
note, or a name longer than 120 characters is rejected with a 400 response,
the store is unchanged, and no Cloudinary upload is attempted. -/
theorem submit_invalid_rejected (cloudinaryConfigured : Bool)
    (req : SubmitRequest) (s : Store)
    (h : jsFalsy req.name = true ∨ jsFalsy req.note = true ∨
      120 < jsLen req.name) :
    (∃ msg, (submit cloudinaryConfigured req s).response = .error 400 msg)
    ∧ (submit cloudinaryConfigured req s).store = s
    ∧ (submit cloudinaryConfigured req s).uploadsAttempted = 0 := by
  unfold submit
  rcases h with h | h | h
  · rw [if_pos (by simp [h])]
    exact ⟨⟨_, rfl⟩, rfl, rfl⟩
  · rw [if_pos (by simp [h])]
    exact ⟨⟨_, rfl⟩, rfl, rfl⟩
  · by_cases hf : (jsFalsy req.name || jsFalsy req.note) = true
    · rw [if_pos hf]
      exact ⟨⟨_, rfl⟩, rfl, rfl⟩
    · rw [if_neg hf, if_pos h]
      exact ⟨⟨_, rfl⟩, rfl, rfl⟩

/-- Witness for C3: a submission with no name is rejected without touching
the store or the media service, even though files were attached. -/
theorem submit_invalid_rejected_witness :
    (∃ msg, (submit true ⟨none, some "hi", [some "u"], .undef⟩
        ⟨[], 1, 5⟩).response = .error 400 msg)
    ∧ (submit true ⟨none, some "hi", [some "u"], .undef⟩ ⟨[], 1, 5⟩).store =
        ⟨[], 1, 5⟩
    ∧ (submit true ⟨none, some "hi", [some "u"], .undef⟩
        ⟨[], 1, 5⟩).uploadsAttempted = 0 :=
  submit_invalid_rejected true ⟨none, some "hi", [some "u"], .undef⟩ ⟨[], 1, 5⟩
    (Or.inl (by decide))

/-- Claim C4: with Cloudinary configured, a valid submission with at most
five files of which some fail to ingest still succeeds; the created entry's
photo list is exactly the urls of the successful ingests in submission order
(the failed files are dropped without failing the request), and it has at
most five elements. -/
theorem submit_upload_failures_dropped (req : SubmitRequest) (s : Store)
    (nm nt : String) (hn : req.name = some nm) (hne : nm ≠ "")
    (hlen : nm.length ≤ 120) (ht : req.note = some nt) (hte : nt ≠ "")
    (hbound : req.files.length ≤ 5) (hfail : none ∈ req.files) :
    ∃ e msg, (submit true req s).response = .success e msg
      ∧ e.photos = req.files.filterMap id
      ∧ e.photos.length ≤ 5
      ∧ (submit true req s).store.entries = s.entries ++ [e] := by
  have h1 : jsFalsy req.name = false := by rw [hn]; exact jsFalsy_some_ne hne
  have h2 : jsFalsy req.note = false := by rw [ht]; exact jsFalsy_some_ne hte
  have h3 : jsLen req.name ≤ 120 := by rw [hn]; simpa [jsLen] using hlen
  have hnonempty : req.files.isEmpty = false := by
    cases hfl : req.files with
    | nil => rw [hfl] at hfail; simp at hfail
    | cons a l => simp
  have hphotos : (validEntry true req s).photos = req.files.filterMap id := by
    simp [validEntry, hnonempty]
  rw [submit_valid_eq true req s h1 h2 h3]
  refine ⟨_, _, rfl, hphotos, ?_, rfl⟩
  rw [hphotos]
  exact le_trans (List.length_filterMap_le _ _) hbound

/-- Witness for C4: of three files the second upload fails; the entry keeps
the two successful urls in order. -/
theorem submit_upload_failures_dropped_witness :
    ∃ e msg,
      (submit true ⟨some "Alex", some "hi", [some "u1", none, some "u3"],
          .undef⟩ ⟨[], 1, 5⟩).response = .success e msg
      ∧ e.photos = [some "u1", none, some "u3"].filterMap id
      ∧ e.photos.length ≤ 5
      ∧ (submit true ⟨some "Alex", some "hi", [some "u1", none, some "u3"],
          .undef⟩ ⟨[], 1, 5⟩).store.entries = ([] : List Entry) ++ [e] :=
  submit_upload_failures_dropped
    ⟨some "Alex", some "hi", [some "u1", none, some "u3"], .undef⟩ ⟨[], 1, 5⟩
    "Alex" "hi" rfl (by decide) (by decide) rfl (by decide) (by decide)
    (by decide)

/-- Claim C9: the admin middleware grants access exactly when the supplied
x-admin-password header equals the configured ADMIN_PASSWORD and answers 401
otherwise; when no password is configured, a request that omits the header
compares undefined with undefined and is granted access. -/
theorem adminAuth_spec :
    (∀ header configPassword : Option String,
      adminAuth header configPassword = .granted ↔ header = configPassword)
    ∧ adminAuth none none = .granted := by
  constructor
  · intro h c
    by_cases hq : h = c <;> simp [adminAuth, hq]
  · decide

/-- Claim C10: a submission counts as private exactly when its private field
is the string true; for any other value (absent, the string True, the string
1, the boolean true, a number) the strict comparison fails, the submission
is not private, and a valid one is created with approved = true and is
immediately visible in the public feed. -/
theorem privateFlag_strict (v : FormValue) (cloudinaryConfigured : Bool)
    (req : SubmitRequest) (s : Store) (nm nt : String)
    (hn : req.name = some nm) (hne : nm ≠ "") (hlen : nm.length ≤ 120)
    (ht : req.note = some nt) (hte : nt ≠ "")
    (hpriv : req.priv ≠ .str "true") :
    (isPrivateOf v = true ↔ v = .str "true")
    ∧ isPrivateOf .undef = false
    ∧ isPrivateOf (.str "True") = false
    ∧ isPrivateOf (.str "1") = false
    ∧ isPrivateOf (.boolean true) = false
    ∧ ∃ e msg,
        (submit cloudinaryConfigured req s).response = .success e msg
        ∧ e.approved = true
        ∧ publicProjection e ∈
            publicFeed (submit cloudinaryConfigured req s).store := by
  refine ⟨?_, by decide, by decide, by decide, by decide, ?_⟩
  · cases v <;> simp [isPrivateOf, FormValue.strictEqStr]
  · have h1 : jsFalsy req.name = false := by
      rw [hn]; exact jsFalsy_some_ne hne
    have h2 : jsFalsy req.note = false := by
      rw [ht]; exact jsFalsy_some_ne hte
    have h3 : jsLen req.name ≤ 120 := by rw [hn]; simpa [jsLen] using hlen
    have happr : isPrivateOf req.priv = false := by
      cases hp : req.priv with
      | undef => simp [isPrivateOf, FormValue.strictEqStr]
      | str t =>
          have htne : t ≠ "true" := by
            intro hteq
            exact hpriv (by rw [hp, hteq])
          simp [isPrivateOf, FormValue.strictEqStr, htne]
      | boolean b => simp [isPrivateOf, FormValue.strictEqStr]
      | num n => simp [isPrivateOf, FormValue.strictEqStr]
    have happE : (validEntry cloudinaryConfigured req s).approved = true := by
      simp [validEntry, happr]
    rw [submit_valid_eq cloudinaryConfigured req s h1 h2 h3]
    refine ⟨_, _, rfl, happE, ?_⟩
    apply List.mem_map_of_mem
    apply (List.mergeSort_perm _ createdDesc).mem_iff.mpr
    apply List.mem_filter.mpr
    exact ⟨List.mem_append.mpr (Or.inr (List.mem_singleton.mpr rfl)),
      by simpa using happE⟩

/-- Witness for C10: the value boolean true, and a submission whose private
field is the string 1, which yields an immediately visible entry. -/
theorem privateFlag_strict_witness :
    (isPrivateOf (.boolean true) = true ↔ (.boolean true : FormValue) = .str "true")
    ∧ isPrivateOf .undef = false
    ∧ isPrivateOf (.str "True") = false
    ∧ isPrivateOf (.str "1") = false
    ∧ isPrivateOf (.boolean true) = false
    ∧ ∃ e msg,
        (submit true ⟨some "Alex", some "hi", [], .str "1"⟩
            ⟨[], 1, 5⟩).response = .success e msg
        ∧ e.approved = true
        ∧ publicProjection e ∈
            publicFeed (submit true ⟨some "Alex", some "hi", [], .str "1"⟩
              ⟨[], 1, 5⟩).store :=
  privateFlag_strict (.boolean true) true
    ⟨some "Alex", some "hi", [], .str "1"⟩ ⟨[], 1, 5⟩ "Alex" "hi" rfl
    (by decide) (by decide) rfl (by decide) (by decide)

/-- Claim C5: user text is escaped before embedding: the escape function
leaves no literal angle bracket in its output, a note containing a script
tag is rendered as the escaped text, and the rendered entry block embeds the
escaped name and note (so they can never appear as live markup). -/
theorem renderEntry_escapes :
    (∀ s : String, '<' ∉ (escapeHtml s).data)
    ∧ escapeHtml "<script>alert(1)</script>" =
        "&lt;script&gt;alert(1)&lt;/script&gt;"
    ∧ ∀ (formatDate : Nat → String) (e : ArchEntry),
        (escapeHtml e.name).data <:+: (renderEntry formatDate e).data
        ∧ (escapeHtml e.note).data <:+:
            (renderEntry formatDate e).data := by
  refine ⟨escapeHtml_no_lt, by decide, ?_⟩
  intro fd e
  constructor
  · exact data_chunk_of_split _ entryOpen _
      (entryAfterName ++ fd e.created_at ++ entryAfterDate ++
        escapeHtml e.note ++ entryAfterNote ++ renderEntryPhotos e ++
        entryClose)
      (by simp [renderEntry, String.append_assoc])
  · exact data_chunk_of_split _
      (entryOpen ++ escapeHtml e.name ++ entryAfterName ++
        fd e.created_at ++ entryAfterDate) _
      (entryAfterNote ++ renderEntryPhotos e ++ entryClose)
      (by simp [renderEntry, String.append_assoc])

/-- A five-entry corpus with unapproved entries both inside and outside the
three-entry test prefix. -/
def exporterTestEntries : List ArchEntry :=
  [⟨1, "a", "x", true, 1, [], []⟩,
   ⟨2, "b", "x", false, 2, [], []⟩,
   ⟨3, "c", "x", true, 3, [], []⟩,
   ⟨4, "d", "x", true, 4, [], []⟩,
   ⟨5, "e", "x", false, 5, [], []⟩]

/-- Counterexample to claim C6 as stated: the offline regeneration script
generate-html.js renders three documents, not four, and none of them is the
public-with-test-entries variant (the approved subset of the full corpus). -/
theorem regenVariants_not_four :
    (regenVariants exporterTestEntries).length = 3
    ∧ ¬ ∃ v ∈ regenVariants exporterTestEntries,
        v.data = exporterTestEntries.filter (fun e => e.approved) := by
  decide

/-- Claim C6 (amended): the backup export script partitions the fetched
entries along the two independent axes (with or without the three-entry test
prefix, all or approved-only) and renders the four variant documents
full-with-tests, public-with-tests, full-clean and public-clean; the offline
regeneration script renders only three documents (full-with-tests,
full-clean over an id-based test exclusion, public-clean) and omits the
public-with-test-entries variant. -/
theorem exporter_variant_partition (entries : List ArchEntry) :
    ((backupVariants entries).map (fun v => v.file) =
        ["time-capsule-full-with-tests.html",
         "time-capsule-public-with-tests.html", "time-capsule-full.html",
         "time-capsule-public.html"]
      ∧ ∀ withTests publicOnly : Bool, ∃ v ∈ backupVariants entries,
          v.data = variantAxisData entries withTests publicOnly)
    ∧ (regenVariants entries).length = 3
    ∧ (regenVariants entries).map (fun v => v.data) =
        [entries, regenCleanEntries entries,
          (regenCleanEntries entries).filter (fun e => e.approved)] := by
  refine ⟨⟨rfl, ?_⟩, rfl, rfl⟩
  intro wt po
  cases wt <;> cases po
  · exact ⟨⟨"time-capsule-full.html", entries.drop 3,
      "Wedding Guestbook — Complete Archive"⟩, by simp [backupVariants], rfl⟩
  · exact ⟨⟨"time-capsule-public.html",
      (entries.drop 3).filter (fun e => e.approved), "Wedding Guestbook"⟩,
      by simp [backupVariants], rfl⟩
  · exact ⟨⟨"time-capsule-full-with-tests.html", entries,
      "Wedding Guestbook — Complete Archive (incl. test posts)"⟩,
      by simp [backupVariants], rfl⟩
  · exact ⟨⟨"time-capsule-public-with-tests.html",
      entries.filter (fun e => e.approved),
      "Wedding Guestbook — Public (incl. test posts)"⟩,
      by simp [backupVariants], rfl⟩

/-- Claim C7: in an export run where exactly one of an entry's three photo
urls fails to fetch, the per-entry loop still completes and embeds exactly
the two successfully fetched photos, while the raw JSON export row keeps all
three original reference urls. -/
theorem export_photo_failure_nonfatal (netFetch : String → Option FetchResp)
    (e : ArchEntry) (u1 u2 u3 : String) (hp : e.photo_urls = [u1, u2, u3])
    (hone : (netFetch u1 = none ∧ netFetch u2 ≠ none ∧ netFetch u3 ≠ none)
      ∨ (netFetch u1 ≠ none ∧ netFetch u2 = none ∧ netFetch u3 ≠ none)
      ∨ (netFetch u1 ≠ none ∧ netFetch u2 ≠ none ∧ netFetch u3 = none)) :
    (embedEntryPhotos netFetch e).length = 2
    ∧ (jsonExportRow e).photo_urls = [u1, u2, u3] := by
  refine ⟨?_, by simp [jsonExportRow, hp]⟩
  rw [embedEntryPhotos, hp]
  rcases hone with ⟨ha, hb, hc⟩ | ⟨ha, hb, hc⟩ | ⟨ha, hb, hc⟩
  · obtain ⟨rb, hrb⟩ := Option.ne_none_iff_exists'.mp hb
    obtain ⟨rc, hrc⟩ := Option.ne_none_iff_exists'.mp hc
    simp [embedPhotosAux, downloadImage, ha, hrb, hrc]
  · obtain ⟨ra, hra⟩ := Option.ne_none_iff_exists'.mp ha
    obtain ⟨rc, hrc⟩ := Option.ne_none_iff_exists'.mp hc
    simp [embedPhotosAux, downloadImage, hra, hb, hrc]
  · obtain ⟨ra, hra⟩ := Option.ne_none_iff_exists'.mp ha
    obtain ⟨rb, hrb⟩ := Option.ne_none_iff_exists'.mp hb
    simp [embedPhotosAux, downloadImage, hra, hrb, hc]

/-- Witness for C7: of three urls the second fails; two photos are embedded
and all three urls survive in the JSON row. -/
theorem export_photo_failure_nonfatal_witness :
    (embedEntryPhotos
        (fun u => if u == "b" then none
          else some (⟨some "image/png", [1]⟩ : FetchResp))
        ⟨9, "n", "m", true, 0, ["a", "b", "c"], []⟩).length = 2
    ∧ (jsonExportRow ⟨9, "n", "m", true, 0, ["a", "b", "c"], []⟩).photo_urls =
        ["a", "b", "c"] :=
  export_photo_failure_nonfatal
    (fun u => if u == "b" then none
      else some (⟨some "image/png", [1]⟩ : FetchResp))
    ⟨9, "n", "m", true, 0, ["a", "b", "c"], []⟩ "a" "b" "c" rfl
    (Or.inr (Or.inl (by decide)))

/-- Claim C8: round trip of the two photo-resolution paths.  A successful
network fetch persists the payload under the deterministic name
entry-(id)-photo-(n) with an extension drawn from the candidate set
(.jpg, .png, .gif, .webp; unknown media types default to .jpg), and on a
filesystem holding that persisted file (and no other candidate for the same
base name) the offline probing path finds it and reads back exactly the
fetched bytes. -/
theorem download_probe_roundtrip (netFetch : String → Option FetchResp)
    (fsys : String → Option (List Nat)) (url : String)
    (entryId photoIndex : Nat) (resp : FetchResp) (r : DownloadResult)
    (hfetch : netFetch url = some resp)
    (hdl : downloadImage netFetch url entryId photoIndex = some r)
    (hfs : fsys r.filename = some r.bytes)
    (hothers : ∀ ext ∈ candidateExts,
      photoBaseName entryId photoIndex ++ ext ≠ r.filename →
      fsys (photoBaseName entryId photoIndex ++ ext) = none) :
    r.filename = photoBaseName entryId photoIndex ++
        extForContentType (resp.contentType.getD "image/jpeg")
    ∧ extForContentType (resp.contentType.getD "image/jpeg") ∈ candidateExts
    ∧ (∀ ct : String,
        ct ∉ ["image/jpeg", "image/png", "image/gif", "image/webp"] →
        extForContentType ct = ".jpg")
    ∧ r.bytes = resp.body
    ∧ readPhotoFile fsys (photoBaseName entryId photoIndex) =
        some resp.body := by
  rw [downloadImage, hfetch] at hdl
  simp only [Option.some.injEq] at hdl
  subst hdl
  refine ⟨rfl, extForContentType_mem _, ?_, rfl, ?_⟩
  · intro ct hct
    simp only [List.mem_cons, List.not_mem_nil, or_false, not_or] at hct
    obtain ⟨n1, n2, n3, n4⟩ := hct
    simp [extForContentType, n1, n2, n3, n4]
  · exact readPhotoFile_of_persisted fsys (photoBaseName entryId photoIndex)
      (extForContentType (resp.contentType.getD "image/jpeg")) resp.body
      (extForContentType_mem _) hfs hothers

/-- Witness for C8: a fetch declaring image/webp is persisted as
entry-3-photo-1.webp; on a filesystem holding exactly that file the probe
reads back the fetched bytes. -/
theorem download_probe_roundtrip_witness :
    (fun _ : String => some (⟨some "image/webp", [7, 8]⟩ : FetchResp)) "u" =
        some ⟨some "image/webp", [7, 8]⟩
    ∧ downloadImage
        (fun _ : String => some (⟨some "image/webp", [7, 8]⟩ : FetchResp))
        "u" 3 1 =
        some ⟨"data:image/webp;base64,Bwg=", "entry-3-photo-1.webp", [7, 8]⟩
    ∧ (fun p : String =>
        if p == "entry-3-photo-1.webp" then some [7, 8] else none)
        (DownloadResult.filename
          ⟨"data:image/webp;base64,Bwg=", "entry-3-photo-1.webp", [7, 8]⟩) =
        some (DownloadResult.bytes
          ⟨"data:image/webp;base64,Bwg=", "entry-3-photo-1.webp", [7, 8]⟩)
    ∧ readPhotoFile
        (fun p : String =>
          if p == "entry-3-photo-1.webp" then some [7, 8] else none)
        (photoBaseName 3 1) = some [7, 8] :=
  ⟨rfl, by decide, by decide,
    (download_probe_roundtrip
      (fun _ : String => some (⟨some "image/webp", [7, 8]⟩ : FetchResp))
      (fun p : String =>
        if p == "entry-3-photo-1.webp" then some [7, 8] else none)
      "u" 3 1 ⟨some "image/webp", [7, 8]⟩
      ⟨"data:image/webp;base64,Bwg=", "entry-3-photo-1.webp", [7, 8]⟩
      rfl (by decide) (by decide) (by decide)).2.2.2.2⟩

end Guestbook
